import Mathlib

/-!
# Image compressor: batch controller of `src/src/App.jsx`

A shallow embedding of the state and the handlers of the `App` component:
the five pieces of React state that make up the batch controller
(`files`, `compressedFiles`, `isProcessing`, `progress`, `stats`) together with
the two settings (`compressionLevel`, `outputFormat`), and the handlers
`onDrop`, `compressImages`, `downloadFile`, `downloadAll`, `clearFiles`.

Modelling conventions.

* Every `setX(v)` of the component is a field update of `State`; the handlers
  are state-passing functions.
* An `async` handler is split at its `await`: the part that runs synchronously
  when the handler is called (it returns the new state and the effects it
  issued, in order), and the continuation that runs when the awaited promise
  settles.  The setters are stable, so a continuation writes to whatever the
  state is when it runs.
* Browser calls whose result the program does not determine (`Math.random`,
  `URL.createObjectURL`) get their result supplied with the input.
* Sizes and byte counts are natural numbers.  `Math.round(loaded * 100 / total)`
  is computed as the program computes it, in double precision: each operand and
  each intermediate result is rounded to the nearest number with a significand
  of 53 bits, ties to the even significand.
-/

namespace ImageCompressor

/-! ## Data model -/

/-- A browser `File`: the fields the component reads. -/
structure File where
  name : String
  size : Nat
  type : String
  deriving DecidableEq, Repr

/-- One element of `acceptedFiles`, together with the two values the browser
produces for it inside `onDrop`: the string `Math.random().toString(36).substr(2, 9)`
and the object URL returned by `URL.createObjectURL(file)`. -/
structure Dropped where
  file : File
  randomId : String
  objectUrl : String
  deriving DecidableEq, Repr

/-- An element of `files` (lines 23-29). -/
structure FileObj where
  id : String
  file : File
  preview : String
  size : Nat
  name : String
  deriving DecidableEq, Repr

/-- An element of `result.files`, the response of `/api/compress`. The field
`savings` is a number the component only copies and displays. -/
structure CompressedFile where
  id : String
  name : String
  format : String
  originalSize : Nat
  compressedSize : Nat
  savings : Int
  deriving DecidableEq, Repr

/-- The `stats` object (line 20 and `result.stats`). -/
structure Stats where
  originalSize : Nat
  compressedSize : Nat
  savings : Int
  deriving DecidableEq, Repr

/-- The values `progress` can take: a natural number, or the two values
`Math.round` returns for a division by zero (`0 / 0` and `n / 0`, `n > 0`). -/
inductive JsNumber where
  | num (n : Nat)
  | nan
  | infinity
  deriving DecidableEq, Repr

/-- The component state (lines 14-20). -/
structure State where
  files : List FileObj
  compressedFiles : List CompressedFile
  isProcessing : Bool
  progress : JsNumber
  compressionLevel : List Nat
  outputFormat : String
  stats : Stats
  deriving DecidableEq, Repr

/-- The initial values of the `useState` calls (lines 14-20). -/
def initialState : State :=
  { files := []
    compressedFiles := []
    isProcessing := false
    progress := JsNumber.num 0
    compressionLevel := [80]
    outputFormat := "jpeg"
    stats := { originalSize := 0, compressedSize := 0, savings := 0 } }

/-- The `FormData` built by `compressImages` (lines 48-53): one `images` part
per item in order, then `quality` and `format`. -/
structure FormData where
  images : List File
  quality : Option Nat
  format : String
  deriving DecidableEq, Repr

/-- What a handler does to the outside world. -/
inductive Effect where
  | fetchPost (url : String) (body : FormData)
  | fetchGet (url : String)
  | consoleError (msg : String)
  | saveAs (download : String)
  deriving DecidableEq, Repr

/-- A `ProgressEvent` as read by the upload-progress handler: `loaded` and
`total` are of type `unsigned long long`, below `2 ^ 64`. -/
structure ProgressEvent where
  loaded : Nat
  total : Nat
  deriving DecidableEq, Repr

/-- The parsed body of a successful `/api/compress` response. -/
structure CompressResult where
  files : List CompressedFile
  stats : Stats
  deriving DecidableEq, Repr

/-- How the awaited `fetch('/api/compress')` of `compressImages` can settle. -/
inductive FetchOutcome where
  /-- The response has `ok` and `response.json()` resolves to `result`. -/
  | ok (result : CompressResult)
  /-- The response has `ok` but `response.json()` rejects. -/
  | okBadBody
  /-- The response does not have `ok`. -/
  | notOk
  /-- The promise of `fetch` rejects (network error). -/
  | rejected
  deriving DecidableEq, Repr

/-! ## Handlers -/

/-- The object built for one accepted file (lines 23-29). -/
def newFile (d : Dropped) : FileObj :=
  { id := d.randomId
    file := d.file
    preview := d.objectUrl
    size := d.file.size
    name := d.file.name }

/-- Handler `onDrop` (lines 22-31): `setFiles(prev => [...prev, ...newFiles])`. -/
def onDrop (s : State) (acceptedFiles : List Dropped) : State :=
  let newFiles := acceptedFiles.map newFile
  { s with files := s.files ++ newFiles }

/-- The folder picker (lines 169-173): keeps the files whose type starts with
`image/` and hands them to `onDrop`. -/
def onFolderChange (s : State) (picked : List Dropped) : State :=
  let imageFiles := picked.filter (fun d => "image/".isPrefixOf d.file.type)
  onDrop s imageFiles

/-- The request body assembled at lines 48-53. -/
def formDataOf (s : State) : FormData :=
  { images := s.files.map (fun fileObj => fileObj.file)
    quality := s.compressionLevel[0]?
    format := s.outputFormat }

/-- Handler `compressImages` up to its `await fetch(...)` (lines 41-63). -/
def compressImages (s : State) : State × List Effect :=
  if s.files.length = 0 then (s, [])
  else
    let s1 := { s with isProcessing := true }
    let s2 := { s1 with progress := JsNumber.num 0 }
    let s3 := { s2 with compressedFiles := [] }
    (s3, [Effect.fetchPost "/api/compress" (formDataOf s)])

/-- The position of the leading binary digit of `n`, with `fuel` halvings
allowed. -/
def log2Aux : Nat → Nat → Nat
  | 0, _ => 0
  | fuel + 1, n => if n < 2 then 0 else log2Aux fuel (n / 2) + 1

/-- The position of the leading binary digit of `n`: the largest `k` with
`2 ^ k ≤ n`, for `n > 0`. -/
def ilog2 (n : Nat) : Nat := log2Aux n n

/-- The integer nearest to `n / d`; of two nearest integers, the even one. -/
def roundHalfEven (n d : Nat) : Nat :=
  let q := n / d
  let r := n % d
  if 2 * r < d then q
  else if d < 2 * r then q + 1
  else if q % 2 = 0 then q else q + 1

/-- The double nearest to the natural number `n`, ties to the even
significand: `n` itself below `2 ^ 53`, and a multiple of `2 ^ (ilog2 n - 52)`
above. (No overflow: the values that occur are below `2 ^ 71`.) -/
def toNumber (n : Nat) : Nat :=
  if n < 2 ^ 53 then n
  else
    let sh := ilog2 n - 52
    roundHalfEven n (2 ^ sh) * 2 ^ sh

/-- The value `Math.round(a / b)` for two doubles `a` and `b > 0` with natural
values: the quotient is rounded to a double `m * 2 ^ (e - 52)`, where
`e = ilog2 a - ilog2 b - δ` is the exponent of `a / b`, and `Math.round` takes
the integer nearest to that double, halves upward. With `k = 52 - e ≥ 0` the
double is `m / 2 ^ k`; with `j = e - 52 > 0` it is the integer `m * 2 ^ j`. -/
def roundedQuotient (a b : Nat) : Nat :=
  if a = 0 then 0
  else
    let la := ilog2 a
    let lb := ilog2 b
    let δ := if a * 2 ^ lb < b * 2 ^ la then 1 else 0
    if la ≤ 52 + lb + δ then
      let k := 52 + lb + δ - la
      let m := roundHalfEven (a * 2 ^ k) b
      (2 * m + 2 ^ k) / (2 * 2 ^ k)
    else
      let j := la - (52 + lb + δ)
      roundHalfEven a (b * 2 ^ j) * 2 ^ j

/-- The value `Math.round((progressEvent.loaded * 100) / progressEvent.total)`
(line 60), in double precision: `loaded` and `total` become doubles, the
product is rounded to a double, the quotient is rounded to a double, and
`Math.round` takes the nearest integer, halves upward. A division by zero
gives `NaN` (`0 / 0`) or `Infinity`. -/
def percentCompleted (e : ProgressEvent) : JsNumber :=
  if e.total = 0 then
    (if e.loaded = 0 then JsNumber.nan else JsNumber.infinity)
  else
    JsNumber.num (roundedQuotient (toNumber (toNumber e.loaded * 100)) (toNumber e.total))

/-- The `onUploadProgress` callback passed to `fetch` (lines 59-62): the
transport calls it with the progress events of the request, one at a time. -/
def onUploadProgress (s : State) (progressEvent : ProgressEvent) : State :=
  { s with progress := percentCompleted progressEvent }

/-- The continuation of `compressImages` after the `fetch` settles
(lines 65-77), the `finally` block included. -/
def compressImagesResume (s : State) : FetchOutcome → State × List Effect
  | FetchOutcome.ok result =>
    let s1 := { s with compressedFiles := result.files }
    let s2 := { s1 with stats := result.stats }
    let s3 := { s2 with progress := JsNumber.num 100 }
    ({ s3 with isProcessing := false }, [])
  | FetchOutcome.notOk =>
    ({ s with isProcessing := false }, [Effect.consoleError "Compression failed"])
  | FetchOutcome.okBadBody =>
    ({ s with isProcessing := false }, [Effect.consoleError "Error:"])
  | FetchOutcome.rejected =>
    ({ s with isProcessing := false }, [Effect.consoleError "Error:"])

/-- Handler `downloadFile` up to its `await fetch(...)` (lines 80-82). -/
def downloadFile (s : State) (fileId : String) : State × List Effect :=
  (s, [Effect.fetchGet ("/api/download/" ++ fileId)])

/-- The continuation of `downloadFile` (lines 83-94): `fetched` tells whether the
`fetch` and the `blob()` resolved. -/
def downloadFileResume (s : State) (fileId : String) (fetched : Bool) :
    State × List Effect :=
  if fetched then
    (s, [Effect.saveAs ("compressed_" ++ fileId ++ "." ++ s.outputFormat)])
  else
    (s, [Effect.consoleError "Download failed:"])

/-- Handler `downloadAll` up to its `await fetch(...)` (lines 97-99). -/
def downloadAll (s : State) : State × List Effect :=
  (s, [Effect.fetchGet "/api/download-all"])

/-- The continuation of `downloadAll` (lines 100-111). -/
def downloadAllResume (s : State) (fetched : Bool) : State × List Effect :=
  if fetched then (s, [Effect.saveAs "compressed_images.zip"])
  else (s, [Effect.consoleError "Download all failed:"])

/-- Handler `clearFiles` (lines 122-127). -/
def clearFiles (s : State) : State :=
  let s1 := { s with files := [] }
  let s2 := { s1 with compressedFiles := [] }
  let s3 := { s2 with stats := { originalSize := 0, compressedSize := 0, savings := 0 } }
  { s3 with progress := JsNumber.num 0 }

/-! ## The rendered controls -/

/-- The buttons of the page that call a handler of the controller. -/
inductive Click where
  /-- The button of line 241, `onClick={compressImages} disabled={isProcessing}`. -/
  | compress
  /-- The button Clear All of line 245. -/
  | clearAll
  /-- The button Download All of line 289. -/
  | downloadAll
  /-- The download button of the result card at `index` (line 343). -/
  | download (index : Nat)
  deriving DecidableEq, Repr

/-- A click on a control: `none` when the control is not rendered in this state.
The card with the buttons of lines 241 and 245 is rendered when
`files.length > 0` (line 233); the results card with the download buttons is
rendered when `compressedFiles.length > 0` (line 282). A disabled button calls
no handler. -/
def click (s : State) : Click → Option (State × List Effect)
  | Click.compress =>
    if s.files.length > 0 then
      some (if s.isProcessing then (s, []) else compressImages s)
    else none
  | Click.clearAll =>
    if s.files.length > 0 then some (clearFiles s, []) else none
  | Click.downloadAll =>
    if s.compressedFiles.length > 0 then some (downloadAll s) else none
  | Click.download index =>
    match s.compressedFiles[index]? with
    | some file => some (downloadFile s file.id)
    | none => none

/-! ## Runs of the controller -/

/-- The controller together with the number of `/api/compress` requests that
were issued and have not settled yet. -/
structure Sys where
  st : State
  inflight : Nat
  deriving DecidableEq, Repr

/-- What can happen to the controller. -/
inductive Event where
  /-- The drop zone delivers accepted files: `onDrop`. -/
  | drop (accepted : List Dropped)
  /-- The handler `compressImages` is called. -/
  | start
  /-- An upload-progress event of a request in flight. -/
  | progress (e : ProgressEvent)
  /-- A request in flight settles. -/
  | settle (o : FetchOutcome)
  /-- The handler `clearFiles` is called. -/
  | reset
  deriving DecidableEq, Repr

/-- Whether an effect is a submit request. -/
def Effect.isSubmit : Effect → Bool
  | Effect.fetchPost _ _ => true
  | _ => false

/-- One event. Progress and settlement need a request in flight. -/
def step (y : Sys) : Event → Option Sys
  | Event.drop accepted => some { y with st := onDrop y.st accepted }
  | Event.start =>
    let r := compressImages y.st
    some { st := r.1, inflight := y.inflight + (r.2.filter Effect.isSubmit).length }
  | Event.progress e =>
    if 0 < y.inflight then some { y with st := onUploadProgress y.st e } else none
  | Event.settle o =>
    if 0 < y.inflight then
      some { st := (compressImagesResume y.st o).1, inflight := y.inflight - 1 }
    else none
  | Event.reset => some { y with st := clearFiles y.st }

/-- A sequence of events, in order. -/
def runEvents (y : Sys) (evs : List Event) : Option Sys :=
  evs.foldlM step y

/-- The system before anything happened. -/
def initialSys : Sys := { st := initialState, inflight := 0 }

/-- The value of `progress` after `compressImages` was called in `s` and the
progress events `evs` were handled in order. -/
def progressAfter (s : State) (evs : List ProgressEvent) : JsNumber :=
  (evs.foldl onUploadProgress (compressImages s).1).progress

/-- The sum of the `originalSize` fields of a result list. -/
def sumOriginal (l : List CompressedFile) : Nat :=
  (l.map (fun f => f.originalSize)).sum

/-- The sum of the `compressedSize` fields of a result list. -/
def sumCompressed (l : List CompressedFile) : Nat :=
  (l.map (fun f => f.compressedSize)).sum

/-- The stats of a response are the totals of its files. -/
def CompressResult.Consistent (r : CompressResult) : Prop :=
  r.stats.originalSize = sumOriginal r.files ∧
    r.stats.compressedSize = sumCompressed r.files

instance (r : CompressResult) : Decidable r.Consistent := by
  unfold CompressResult.Consistent; infer_instance

/-- The stored stats are the totals of the stored results. -/
def StatsMatch (s : State) : Prop :=
  s.stats.originalSize = sumOriginal s.compressedFiles ∧
    s.stats.compressedSize = sumCompressed s.compressedFiles

instance (s : State) : Decidable (StatsMatch s) := by
  unfold StatsMatch; infer_instance

/-- An operation on the item list. -/
inductive ItemOp where
  | add (accepted : List Dropped)
  | clear
  deriving DecidableEq, Repr

/-- An item operation on the controller: `onDrop` or `clearFiles`. -/
def applyItemOp (s : State) : ItemOp → State
  | ItemOp.add accepted => onDrop s accepted
  | ItemOp.clear => clearFiles s

/-- The specification of the item list: the sources added since the last clear,
in call order and in within-call order. -/
def sourcesSinceClear : List ItemOp → List File
  | [] => []
  | ItemOp.add accepted :: rest =>
    if rest.any (fun op => op == ItemOp.clear) then sourcesSinceClear rest
    else accepted.map (fun d => d.file) ++ sourcesSinceClear rest
  | ItemOp.clear :: rest => sourcesSinceClear rest

/-! ## Example inputs -/

/-- A picture of 100 bytes. -/
def photoA : File := { name := "a.png", size := 100, type := "image/png" }

/-- A picture of 200 bytes. -/
def photoB : File := { name := "b.png", size := 200, type := "image/png" }

/-- A picture of 300 bytes. -/
def photoC : File := { name := "c.png", size := 300, type := "image/png" }

/-- The first picture as the drop zone delivers it. -/
def dropA : Dropped := { file := photoA, randomId := "k3j9x0q1z", objectUrl := "blob:a" }

/-- The second picture as the drop zone delivers it. -/
def dropB : Dropped := { file := photoB, randomId := "p07m2c5yw", objectUrl := "blob:b" }

/-- The third picture as the drop zone delivers it. -/
def dropC : Dropped := { file := photoC, randomId := "zz81h4d6t", objectUrl := "blob:c" }

/-- One picture was added to the initial state. -/
def oneItemState : State := onDrop initialState [dropA]

/-- One picture was added, `compressImages` was called and the upload is half
way: a run is active. -/
def busyState : State :=
  onUploadProgress (compressImages oneItemState).1 { loaded := 50, total := 100 }

/-- The response of the service for the one picture. -/
def resultA : CompressResult :=
  { files := [{ id := "r1", name := "a.png", format := "jpeg", originalSize := 100,
                compressedSize := 50, savings := 50 }]
    stats := { originalSize := 100, compressedSize := 50, savings := 50 } }

/-- Three pictures of 100, 200 and 300 bytes, quality 80 and format webp. -/
def threeItemState : State :=
  { onDrop initialState [dropA, dropB, dropC] with
    compressionLevel := [80], outputFormat := "webp" }

/-- The response of the service for the three pictures. -/
def resultABC : CompressResult :=
  { files := [{ id := "r1", name := "a.png", format := "webp", originalSize := 100,
                compressedSize := 50, savings := 50 },
              { id := "r2", name := "b.png", format := "webp", originalSize := 200,
                compressedSize := 100, savings := 50 },
              { id := "r3", name := "c.png", format := "webp", originalSize := 300,
                compressedSize := 150, savings := 50 }]
    stats := { originalSize := 600, compressedSize := 300, savings := 50 } }

/-! ## Reset -/

/-- C1, as stated, fails: in the state where one picture was added and a run is
active (`isProcessing = true`), `clearFiles` leaves `isProcessing = true`, so the
state after the reset is not the idle one. -/
theorem clearFiles_keeps_processing :
    busyState.isProcessing = true ∧ (clearFiles busyState).isProcessing = true := by
  decide

/-- C1, amended: in every state `clearFiles` empties the item list and the
result list, zeroes the stats, sets the progress to 0 and leaves `isProcessing`
(and the two settings) as they were. -/
theorem clearFiles_eq (s : State) :
    clearFiles s =
      { files := []
        compressedFiles := []
        isProcessing := s.isProcessing
        progress := JsNumber.num 0
        compressionLevel := s.compressionLevel
        outputFormat := s.outputFormat
        stats := { originalSize := 0, compressedSize := 0, savings := 0 } } := by
  rfl

/-! ## Start -/

/-- C2: with an empty item list `compressImages` returns at once: the state is
unchanged in every field and no request is issued. -/
theorem compressImages_empty (s : State) (h : s.files = []) :
    compressImages s = (s, []) := by
  simp [compressImages, h]

/-- C2 at the initial state. -/
theorem compressImages_empty_witness :
    initialState.files = [] ∧ compressImages initialState = (initialState, []) :=
  ⟨rfl, compressImages_empty initialState rfl⟩

/-- C5, as stated, fails: called while a run is active at progress 50,
`compressImages` sets the progress back to 0 and issues a second submit
request. -/
theorem compressImages_while_processing :
    busyState.isProcessing = true ∧ busyState.files ≠ [] ∧
      busyState.progress = JsNumber.num 50 ∧
      (compressImages busyState).1.progress = JsNumber.num 0 ∧
      (compressImages busyState).2 =
        [Effect.fetchPost "/api/compress"
          { images := [photoA], quality := some 80, format := "jpeg" }] := by
  decide

/-- C5, amended: while a run is active and the item list is non-empty, the
Compress button is disabled, so a click on it changes no state field and issues
no request; `compressImages` itself has no such guard: called in that state it
sets the progress to 0, empties the result list and issues a submit request. -/
theorem start_while_processing (s : State) (hp : s.isProcessing = true)
    (hf : s.files ≠ []) :
    click s Click.compress = some (s, []) ∧
      compressImages s =
        ({ s with progress := JsNumber.num 0, compressedFiles := [] },
          [Effect.fetchPost "/api/compress" (formDataOf s)]) := by
  have hlen : s.files.length ≠ 0 := by
    simpa [List.length_eq_zero] using hf
  constructor
  · simp [click, hp, Nat.pos_of_ne_zero hlen]
  · cases s
    simp_all [compressImages]

/-- C5, amended, at the state where a run is active at progress 50. -/
theorem start_while_processing_witness :
    click busyState Click.compress = some (busyState, []) ∧
      compressImages busyState =
        ({ busyState with progress := JsNumber.num 0, compressedFiles := [] },
          [Effect.fetchPost "/api/compress" (formDataOf busyState)]) :=
  start_while_processing busyState (by decide) (by decide)

/-! ## Download -/

/-- C8, as stated, fails: while a run is active, `downloadFile` with the id `x`
and `downloadAll` each issue their retrieval request. -/
theorem download_while_processing :
    busyState.isProcessing = true ∧
      (downloadFile busyState "x").2 = [Effect.fetchGet "/api/download/x"] ∧
      (downloadAll busyState).2 = [Effect.fetchGet "/api/download-all"] := by
  decide

/-- C8, amended: in every state and for every id, `downloadFile` and
`downloadAll` issue their retrieval request and leave the state unchanged; they
do not look at the state. The controls that call them are rendered only while
the result list is non-empty: with an empty result list no click reaches
them. -/
theorem download_unguarded (s : State) (fileId : String) :
    downloadFile s fileId = (s, [Effect.fetchGet ("/api/download/" ++ fileId)]) ∧
      downloadAll s = (s, [Effect.fetchGet "/api/download-all"]) ∧
      (s.compressedFiles = [] →
        click s Click.downloadAll = none ∧
          ∀ index, click s (Click.download index) = none) := by
  refine ⟨rfl, rfl, ?_⟩
  intro h
  simp [click, h]

/-! ## A run: start, progress, settlement -/

/-- Progress events change the field `progress` and nothing else. -/
theorem foldl_onUploadProgress (evs : List ProgressEvent) (s : State) :
    evs.foldl onUploadProgress s =
      { s with progress := (evs.foldl onUploadProgress s).progress } := by
  induction evs generalizing s with
  | nil => rfl
  | cons e evs ih =>
    rw [List.foldl_cons, ih (onUploadProgress s e)]
    rfl

/-- A run of events handles the first event and then the others. -/
theorem runEvents_cons (y : Sys) (ev : Event) (rest : List Event) :
    runEvents y (ev :: rest) = (step y ev).bind (fun z => runEvents z rest) := by
  simp [runEvents, List.foldlM_cons]

/-- While a request is in flight, a block of progress events is handled by the
callback, one event after the other. -/
theorem runEvents_progress (evs : List ProgressEvent) (rest : List Event)
    (s : State) (n : Nat) :
    runEvents { st := s, inflight := n + 1 } (evs.map Event.progress ++ rest) =
      runEvents { st := evs.foldl onUploadProgress s, inflight := n + 1 } rest := by
  induction evs generalizing s with
  | nil => rfl
  | cons e evs ih =>
    rw [List.map_cons, List.cons_append, runEvents_cons, List.foldl_cons,
      ← ih (onUploadProgress s e)]
    simp [step]

/-- Calling `compressImages` on a non-empty item list puts one request in
flight. -/
theorem runEvents_start (s : State) (n : Nat) (rest : List Event)
    (hf : s.files ≠ []) :
    runEvents { st := s, inflight := n } (Event.start :: rest) =
      runEvents { st := (compressImages s).1, inflight := n + 1 } rest := by
  have hlen : s.files.length ≠ 0 := by
    simpa [List.length_eq_zero] using hf
  simp [runEvents, step, compressImages, hlen, Effect.isSubmit]

/-- The state in which `compressImages` leaves a non-empty item list. -/
theorem compressImages_fst (s : State) (hf : s.files ≠ []) :
    (compressImages s).1 =
      { s with isProcessing := true, progress := JsNumber.num 0, compressedFiles := [] } := by
  have hlen : s.files.length ≠ 0 := by
    simpa [List.length_eq_zero] using hf
  simp [compressImages, hlen]

/-- C3: a run on a non-empty item list (the call of `compressImages`, any
progress events, then a successful response with body `result`) ends in the
state whose result list is `result.files` in the same order, whose stats are
`result.stats`, whose progress is 100 and whose `isProcessing` is false; the
item list and the settings are as before the run. -/
theorem run_success (s : State) (n : Nat) (evs : List ProgressEvent)
    (result : CompressResult) (hf : s.files ≠ []) :
    runEvents { st := s, inflight := n }
        (Event.start :: (evs.map Event.progress ++
          [Event.settle (FetchOutcome.ok result)])) =
      some { st := { s with compressedFiles := result.files
                            stats := result.stats
                            progress := JsNumber.num 100
                            isProcessing := false }
             inflight := n } := by
  rw [runEvents_start s n _ hf, runEvents_progress, foldl_onUploadProgress,
    compressImages_fst s hf]
  simp [runEvents, step, compressImagesResume]

/-- C3 on the scenario: three items of 100, 200 and 300 bytes, quality 80,
format webp, progress 0, 50, 100, then the response with stats
`{originalSize: 600, compressedSize: 300, savings: 50}`. -/
theorem run_success_witness :
    threeItemState.files ≠ [] ∧
      runEvents { st := threeItemState, inflight := 0 }
          (Event.start ::
            ([{ loaded := 0, total := 600 }, { loaded := 300, total := 600 },
              { loaded := 600, total := 600 }].map Event.progress ++
              [Event.settle (FetchOutcome.ok resultABC)])) =
        some { st := { threeItemState with
                        compressedFiles := resultABC.files
                        stats := { originalSize := 600, compressedSize := 300, savings := 50 }
                        progress := JsNumber.num 100
                        isProcessing := false }
               inflight := 0 } :=
  ⟨by decide, run_success threeItemState 0 _ resultABC (by decide)⟩

/-- C4: a run on a non-empty item list that ends in a failure (a response
without `ok`, a body that does not parse, or a rejected `fetch`) ends in the
state whose result list is empty, whatever it was before the run, whose item
list is the one before the run and whose `isProcessing` is false. -/
theorem run_failure (s : State) (n : Nat) (evs : List ProgressEvent)
    (o : FetchOutcome) (hf : s.files ≠ []) (ho : ∀ result, o ≠ FetchOutcome.ok result) :
    runEvents { st := s, inflight := n }
        (Event.start :: (evs.map Event.progress ++ [Event.settle o])) =
      some { st := { s with compressedFiles := []
                            progress := progressAfter s evs
                            isProcessing := false }
             inflight := n } := by
  rw [runEvents_start s n _ hf, runEvents_progress, foldl_onUploadProgress]
  unfold progressAfter
  rw [compressImages_fst s hf]
  cases o with
  | ok result => exact absurd rfl (ho result)
  | okBadBody => simp [runEvents, step, compressImagesResume]
  | notOk => simp [runEvents, step, compressImagesResume]
  | rejected => simp [runEvents, step, compressImagesResume]

/-- C4 on a run started on top of the results of a successful run: three
items, results of the previous run present, then a response without `ok`. -/
theorem run_failure_witness :
    ({ threeItemState with compressedFiles := resultABC.files }).files ≠ [] ∧
      (∀ result, FetchOutcome.notOk ≠ FetchOutcome.ok result) ∧
      runEvents { st := { threeItemState with compressedFiles := resultABC.files },
                  inflight := 0 }
          (Event.start :: ([{ loaded := 300, total := 600 }].map Event.progress ++
            [Event.settle FetchOutcome.notOk])) =
        some { st := { threeItemState with compressedFiles := []
                                           progress := JsNumber.num 50
                                           isProcessing := false }
               inflight := 0 } :=
  ⟨by decide, fun _ h => FetchOutcome.noConfusion h,
    run_failure { threeItemState with compressedFiles := resultABC.files } 0
      [{ loaded := 300, total := 600 }] FetchOutcome.notOk (by decide)
      (fun _ h => FetchOutcome.noConfusion h)⟩

/-- C6, as stated, fails: one picture is added, `compressImages` is called,
`clearFiles` is called while the request is in flight (result list empty, stats
zero), and then the successful response arrives: the result list and the stats
become those of the late response. -/
theorem late_response_not_discarded :
    runEvents initialSys [Event.drop [dropA], Event.start, Event.reset] =
        some { st := { initialState with isProcessing := true }, inflight := 1 } ∧
      runEvents initialSys [Event.drop [dropA], Event.start, Event.reset,
          Event.settle (FetchOutcome.ok resultA)] =
        some { st := { initialState with
                        compressedFiles := resultA.files
                        stats := { originalSize := 100, compressedSize := 50, savings := 50 }
                        progress := JsNumber.num 100 }
               inflight := 0 } ∧
      resultA.files ≠ [] := by
  decide

/-- C6, amended: when `clearFiles` is called while a run is in flight and the
successful response of that run arrives afterwards, the response is applied to
the cleared state: the result list becomes the files of the response, the stats
become the stats of the response, the progress becomes 100 and `isProcessing`
becomes false, while the item list stays empty. -/
theorem late_response_applied (s : State) (n : Nat) (evs1 evs2 : List ProgressEvent)
    (result : CompressResult) (hf : s.files ≠ []) :
    runEvents { st := s, inflight := n }
        (Event.start :: (evs1.map Event.progress ++ Event.reset ::
          (evs2.map Event.progress ++ [Event.settle (FetchOutcome.ok result)]))) =
      some { st := { s with files := []
                            compressedFiles := result.files
                            stats := result.stats
                            progress := JsNumber.num 100
                            isProcessing := false }
             inflight := n } := by
  rw [runEvents_start s n _ hf, runEvents_progress, foldl_onUploadProgress,
    compressImages_fst s hf]
  have hreset : ∀ (t : State) (rest : List Event),
      runEvents { st := t, inflight := n + 1 } (Event.reset :: rest) =
        runEvents { st := clearFiles t, inflight := n + 1 } rest := by
    intro t rest
    simp [runEvents, step]
  rw [hreset, runEvents_progress, foldl_onUploadProgress]
  simp [runEvents, step, compressImagesResume, clearFiles]

/-- C6, amended, on one picture with a progress event before and after the
reset. -/
theorem late_response_applied_witness :
    oneItemState.files ≠ [] ∧
      runEvents { st := oneItemState, inflight := 0 }
          (Event.start :: ([{ loaded := 50, total := 100 }].map Event.progress ++
            Event.reset :: ([{ loaded := 100, total := 100 }].map Event.progress ++
              [Event.settle (FetchOutcome.ok resultA)]))) =
        some { st := { oneItemState with files := []
                                         compressedFiles := resultA.files
                                         stats := resultA.stats
                                         progress := JsNumber.num 100
                                         isProcessing := false }
               inflight := 0 } :=
  ⟨by decide, late_response_applied oneItemState 0 _ _ resultA (by decide)⟩

/-! ## Progress -/

/-- The exactly rounded percentage of a fraction at most one is at most 100. -/
theorem percent_le_hundred (l t : Nat) (ht : 0 < t) (hl : l ≤ t) :
    (2 * (l * 100) + t) / (2 * t) ≤ 100 := by
  have h : (2 * (l * 100) + t) / (2 * t) < 101 := by
    rw [Nat.div_lt_iff_lt_mul (by omega)]
    omega
  omega

/-- The exactly rounded percentage is monotone in the fraction. -/
theorem percent_mono (a t b u : Nat) (ht : 0 < t) (hu : 0 < u)
    (h : a * u ≤ b * t) :
    (2 * (a * 100) + t) / (2 * t) ≤ (2 * (b * 100) + u) / (2 * u) := by
  rw [Nat.le_div_iff_mul_le (by omega)]
  have hq : (2 * (a * 100) + t) / (2 * t) * (2 * t) ≤ 2 * (a * 100) + t :=
    Nat.div_mul_le_self _ _
  apply Nat.le_of_mul_le_mul_right _ ht
  nlinarith

/-- The exactly rounded percentage is the largest integer not above
`loaded * 100 / total + 1 / 2`. -/
theorem percent_eq_floor (l t : Nat) (ht : 0 < t) :
    (2 * (l * 100) + t) / (2 * t) = ⌊((l * 100 : ℕ) : ℚ) / (t : ℚ) + 1 / 2⌋₊ := by
  have htq : (0 : ℚ) < (t : ℚ) := by exact_mod_cast ht
  have h2 : ((l * 100 : ℕ) : ℚ) / (t : ℚ) + 1 / 2 =
      ((2 * (l * 100) + t : ℕ) : ℚ) / ((2 * t : ℕ) : ℚ) := by
    push_cast
    field_simp
    ring
  rw [h2, Nat.floor_div_eq_div]

/-- With enough fuel, `log2Aux` finds the leading binary digit. -/
theorem log2Aux_spec (fuel n : Nat) (hn : 0 < n) (hf : n ≤ fuel) :
    2 ^ log2Aux fuel n ≤ n ∧ n < 2 ^ (log2Aux fuel n + 1) := by
  induction fuel generalizing n with
  | zero => omega
  | succ fuel ih =>
    unfold log2Aux
    by_cases h2 : n < 2
    · simp only [h2, if_true]
      constructor <;> simp <;> omega
    · simp only [h2, if_false]
      obtain ⟨h1, h3⟩ := ih (n / 2) (by omega) (by omega)
      rw [pow_succ] at h3 ⊢
      constructor
      · omega
      · rw [pow_succ]; omega

/-- The number `ilog2 n` is the position of the leading binary digit of `n`. -/
theorem ilog2_spec (n : Nat) (hn : 0 < n) :
    2 ^ ilog2 n ≤ n ∧ n < 2 ^ (ilog2 n + 1) :=
  log2Aux_spec n n hn (Nat.le_refl n)

/-- Rounding to the nearest integer moves a quotient by at most one half. -/
theorem roundHalfEven_bounds (n d : Nat) (hd : 0 < d) :
    2 * (d * roundHalfEven n d) ≤ 2 * n + d ∧
      2 * n ≤ 2 * (d * roundHalfEven n d) + d := by
  have hdm := Nat.div_add_mod n d
  have hr := Nat.mod_lt n hd
  unfold roundHalfEven
  simp only
  generalize n / d = q at *
  generalize n % d = r at *
  split_ifs <;> refine ⟨?_, ?_⟩ <;> nlinarith

/-- A natural number below `2 ^ 53` is a double. -/
theorem toNumber_of_lt (n : Nat) (h : n < 2 ^ 53) : toNumber n = n := by
  unfold toNumber
  rw [if_pos h]

/-- For a divisor below `2 ^ 46` and a quotient of at most 100, rounding the
quotient to a double does not move it across a half-integer: `Math.round` of
the double quotient is the exactly rounded quotient. -/
theorem roundedQuotient_exact (a b : Nat) (hb : 0 < b) (hb46 : b < 2 ^ 46)
    (hab : a ≤ 100 * b) :
    roundedQuotient a b = (2 * a + b) / (2 * b) := by
  by_cases ha : a = 0
  · subst ha
    simp only [roundedQuotient, if_true]
    symm
    apply Nat.div_eq_of_lt
    omega
  · have hapos : 0 < a := Nat.pos_of_ne_zero ha
    obtain ⟨ha1, _⟩ := ilog2_spec a hapos
    obtain ⟨_, hb2⟩ := ilog2_spec b hb
    have hla : ilog2 a < ilog2 b + 8 := by
      apply (Nat.pow_lt_pow_iff_right (by norm_num : 1 < 2)).mp
      have : (2 : Nat) ^ (ilog2 b + 8) = 2 ^ (ilog2 b + 1) * 128 := by
        rw [show ilog2 b + 8 = ilog2 b + 1 + 7 by omega, pow_add]
        norm_num
      omega
    simp only [roundedQuotient, ha, if_false]
    have hδ7 : ilog2 a = ilog2 b + 7 →
        (if a * 2 ^ ilog2 b < b * 2 ^ ilog2 a then 1 else 0) = 1 := by
      intro h7
      have hX : 0 < 2 ^ ilog2 b := Nat.pow_pos (by norm_num)
      have hlt : a * 2 ^ ilog2 b < b * 2 ^ ilog2 a := by
        rw [h7, pow_add]
        have := Nat.mul_le_mul_right (2 ^ ilog2 b) hab
        nlinarith
      rw [if_pos hlt]
    generalize hδ : (if a * 2 ^ ilog2 b < b * 2 ^ ilog2 a then 1 else 0) = δ at hδ7
    have hbr : ilog2 a ≤ 52 + ilog2 b + δ := by omega
    simp only [hbr, if_true]
    obtain ⟨j, hj⟩ : ∃ j, 52 + ilog2 b + δ - ilog2 a = j + 46 := by
      refine ⟨52 + ilog2 b + δ - ilog2 a - 46, ?_⟩
      by_cases h7 : ilog2 a = ilog2 b + 7
      · have := hδ7 h7
        omega
      · omega
    rw [hj]
    have hP : (2 : Nat) ^ (j + 46) = 2 * 2 ^ (j + 45) := by
      rw [show j + 46 = (j + 45) + 1 by omega, pow_succ]; ring
    have hPb : b < 2 * 2 ^ (j + 45) := by
      have : (2 : Nat) ^ 46 ≤ 2 ^ (j + 46) := Nat.pow_le_pow_right (by norm_num) (by omega)
      omega
    rw [hP]
    generalize (2 : Nat) ^ (j + 45) = P at *
    obtain ⟨h1, h2⟩ := roundHalfEven_bounds (a * (2 * P)) b hb
    generalize roundHalfEven (a * (2 * P)) b = m at *
    have hK := Nat.div_add_mod (2 * a + b) (2 * b)
    have hr := Nat.mod_lt (2 * a + b) (show 0 < 2 * b by omega)
    generalize (2 * a + b) / (2 * b) = K at *
    generalize (2 * a + b) % (2 * b) = r at *
    have e1 : 2 * b * K ≤ 2 * a + b := by omega
    have e2 : 2 * a + 1 ≤ 2 * b * K + b := by omega
    have e3 := Nat.mul_le_mul_left (2 * P) e1
    have e4 := Nat.mul_le_mul_left (2 * P) e2
    apply Nat.div_eq_of_lt_le
    · have h : b * (4 * (K * P)) ≤ b * (2 * m + 2 * P + 1) := by linarith
      have h3 := Nat.le_of_mul_le_mul_left h hb
      have h4 : K * (2 * (2 * P)) = 4 * (K * P) := by ring
      rw [h4]
      omega
    · have h : b * (2 * m) < b * (4 * (K * P) + 2 * P) := by linarith
      have h3 := Nat.lt_of_mul_lt_mul_left h
      have h4 : (K + 1) * (2 * (2 * P)) = 4 * (K * P) + 4 * P := by ring
      rw [h4]
      omega

/-- For `0 < total < 2 ^ 46` and `loaded ≤ total` the double computation of
line 60 gives the exactly rounded percentage. -/
theorem percentCompleted_exact (e : ProgressEvent) (ht : 0 < e.total)
    (hl : e.loaded ≤ e.total) (hb : e.total < 2 ^ 46) :
    percentCompleted e =
      JsNumber.num ((2 * (e.loaded * 100) + e.total) / (2 * e.total)) := by
  have h46 : (2 : Nat) ^ 46 = 70368744177664 := by norm_num
  have h53 : (2 : Nat) ^ 53 = 9007199254740992 := by norm_num
  have h1 : toNumber e.loaded = e.loaded := toNumber_of_lt _ (by omega)
  have h2 : toNumber (e.loaded * 100) = e.loaded * 100 := toNumber_of_lt _ (by omega)
  have h3 : toNumber e.total = e.total := toNumber_of_lt _ (by omega)
  unfold percentCompleted
  rw [if_neg (Nat.pos_iff_ne_zero.mp ht), h1, h2, h3,
    roundedQuotient_exact _ _ ht hb (by omega)]

/-- Beyond that range the double computation and the exact percentage part:
for the two events below the fraction `loaded / total` grows, the exactly
rounded percentage is 0 for both, and line 60 gives 1 and then 0. -/
theorem percentCompleted_large :
    360287970189643 * 72057594037929008 ≤ 360287970189645 * 72057594037928608 ∧
      percentCompleted { loaded := 360287970189643, total := 72057594037928608 } =
        JsNumber.num 1 ∧
      percentCompleted { loaded := 360287970189645, total := 72057594037929008 } =
        JsNumber.num 0 := by
  decide

/-- Right after `compressImages` on a non-empty item list the progress is 0. -/
theorem progressAfter_nil (s : State) (hf : s.files ≠ []) :
    progressAfter s [] = JsNumber.num 0 := by
  simp [progressAfter, compressImages_fst s hf]

/-- After a progress event the progress is the percentage of that event. -/
theorem progressAfter_concat (s : State) (evs : List ProgressEvent)
    (e : ProgressEvent) :
    progressAfter s (evs ++ [e]) = percentCompleted e := by
  simp [progressAfter, List.foldl_append, onUploadProgress]

/-- C7, as stated, fails: after `compressImages` on one picture, the progress
events `(50, 100)` and then `(20, 100)` set the progress to 50 and then to 20;
and the single event `(300, 100)` sets it to 300. -/
theorem progress_regresses :
    progressAfter oneItemState [{ loaded := 50, total := 100 }] = JsNumber.num 50 ∧
      progressAfter oneItemState
          [{ loaded := 50, total := 100 }, { loaded := 20, total := 100 }] =
        JsNumber.num 20 ∧
      progressAfter oneItemState [{ loaded := 300, total := 100 }] = JsNumber.num 300 := by
  decide

/-- C7, amended: within a run on a non-empty item list the progress starts at
0, and after each event it is the value `Math.round(loaded * 100 / total)` of
that event as line 60 computes it, whatever was stored before. When every
event has `0 < total < 2 ^ 46` and `loaded ≤ total`, that value is the exactly
rounded percentage; when moreover the fraction `loaded / total` does not
decrease from one event to the next, the progress after each event is at
least the progress before it and at most 100. -/
theorem progress_monotone (s : State) (evs : List ProgressEvent)
    (hf : s.files ≠ [])
    (hwf : ∀ e ∈ evs, 0 < e.total ∧ e.loaded ≤ e.total ∧ e.total < 2 ^ 46)
    (hmono : ∀ k a b, evs[k]? = some a → evs[k + 1]? = some b →
      a.loaded * b.total ≤ b.loaded * a.total) :
    progressAfter s [] = JsNumber.num 0 ∧
      ∀ (k : Nat) (e : ProgressEvent), evs[k]? = some e →
        progressAfter s (evs.take (k + 1)) = percentCompleted e ∧
          percentCompleted e =
            JsNumber.num ((2 * (e.loaded * 100) + e.total) / (2 * e.total)) ∧
          ∃ p q, progressAfter s (evs.take k) = JsNumber.num p ∧
            progressAfter s (evs.take (k + 1)) = JsNumber.num q ∧ p ≤ q ∧ q ≤ 100 := by
  refine ⟨progressAfter_nil s hf, ?_⟩
  have hstep : ∀ (k : Nat) (e : ProgressEvent), evs[k]? = some e →
      progressAfter s (evs.take (k + 1)) = percentCompleted e := by
    intro k e he
    rw [List.take_succ, he, Option.toList_some, progressAfter_concat]
  have hexact : ∀ (k : Nat) (e : ProgressEvent), evs[k]? = some e →
      percentCompleted e =
        JsNumber.num ((2 * (e.loaded * 100) + e.total) / (2 * e.total)) := by
    intro k e he
    obtain ⟨h1, h2, h3⟩ := hwf e (List.getElem?_mem he)
    exact percentCompleted_exact e h1 h2 h3
  intro k e he
  obtain ⟨hbt, hbl, _⟩ := hwf e (List.getElem?_mem he)
  refine ⟨hstep k e he, hexact k e he, ?_⟩
  have hq := (hstep k e he).trans (hexact k e he)
  cases k with
  | zero =>
    exact ⟨0, _, by simpa using progressAfter_nil s hf, hq, Nat.zero_le _,
      percent_le_hundred _ _ hbt hbl⟩
  | succ j =>
    have hj : j < evs.length := by
      have := (List.getElem?_eq_some.mp he).1
      omega
    have ha : evs[j]? = some evs[j] := List.getElem?_eq_getElem hj
    obtain ⟨hat, _, _⟩ := hwf evs[j] (List.getElem_mem hj)
    have hp := (hstep j _ ha).trans (hexact j _ ha)
    exact ⟨_, _, hp, hq, percent_mono _ _ _ _ hat hbt (hmono j _ _ ha he),
      percent_le_hundred _ _ hbt hbl⟩

/-- C7, amended, on the scenario: three items and the progress events
`(0, 600)`, `(300, 600)`, `(600, 600)`. -/
theorem progress_monotone_witness :
    progressAfter threeItemState [] = JsNumber.num 0 ∧
      ∀ (k : Nat) (e : ProgressEvent), ([{ loaded := 0, total := 600 }, { loaded := 300, total := 600 },
          { loaded := 600, total := 600 }] : List ProgressEvent)[k]? = some e →
        progressAfter threeItemState
            (([{ loaded := 0, total := 600 }, { loaded := 300, total := 600 },
              { loaded := 600, total := 600 }] : List ProgressEvent).take (k + 1)) =
          percentCompleted e ∧
          percentCompleted e =
            JsNumber.num ((2 * (e.loaded * 100) + e.total) / (2 * e.total)) ∧
          ∃ p q,
            progressAfter threeItemState
                (([{ loaded := 0, total := 600 }, { loaded := 300, total := 600 },
                  { loaded := 600, total := 600 }] : List ProgressEvent).take k) =
              JsNumber.num p ∧
            progressAfter threeItemState
                (([{ loaded := 0, total := 600 }, { loaded := 300, total := 600 },
                  { loaded := 600, total := 600 }] : List ProgressEvent).take (k + 1)) =
              JsNumber.num q ∧ p ≤ q ∧ q ≤ 100 :=
  progress_monotone threeItemState
    [{ loaded := 0, total := 600 }, { loaded := 300, total := 600 },
      { loaded := 600, total := 600 }]
    (by decide) (by decide)
    (by
      intro k a b h1 h2
      rcases k with _ | _ | _ | k
      · simp at h1 h2; subst h1 h2; decide
      · simp at h1 h2; subst h1 h2; decide
      · simp at h2
      · simp at h1)

/-! ## The item list -/

/-- The sources of the items after a sequence of item operations from any
state: the sources already there unless a clear follows, then the sources added
since the last clear. -/
theorem foldl_applyItemOp_sources (ops : List ItemOp) (s : State) :
    (ops.foldl applyItemOp s).files.map (fun it => it.file) =
      (if ops.any (fun op => op == ItemOp.clear) then []
        else s.files.map (fun it => it.file)) ++ sourcesSinceClear ops := by
  induction ops generalizing s with
  | nil => simp [sourcesSinceClear]
  | cons op rest ih =>
    cases op with
    | add accepted =>
      rw [List.foldl_cons, ih]
      by_cases hc : rest.any (fun op => op == ItemOp.clear) = true
      · simp [sourcesSinceClear, hc]
      · simp [sourcesSinceClear, hc, applyItemOp, onDrop, newFile, Function.comp_def]
    | clear =>
      rw [List.foldl_cons, ih]
      simp [sourcesSinceClear, applyItemOp, clearFiles]

/-- Item operations keep every item in step with its source. -/
theorem foldl_applyItemOp_fields (ops : List ItemOp) (s : State)
    (h : ∀ it ∈ s.files, it.name = it.file.name ∧ it.size = it.file.size) :
    ∀ it ∈ (ops.foldl applyItemOp s).files,
      it.name = it.file.name ∧ it.size = it.file.size := by
  induction ops generalizing s with
  | nil => simpa using h
  | cons op rest ih =>
    rw [List.foldl_cons]
    apply ih
    cases op with
    | add accepted =>
      intro it hit
      simp only [applyItemOp, onDrop, List.mem_append, List.mem_map] at hit
      rcases hit with hit | ⟨d, _, rfl⟩
      · exact h it hit
      · exact ⟨rfl, rfl⟩
    | clear =>
      intro it hit
      simp [applyItemOp, clearFiles] at hit

/-- C9: after every sequence of `onDrop` and `clearFiles` from a state with an
empty item list, the sources of the item list are, in order, exactly the
sources added since the last clear, and every item carries the name and the
size of its source; `onDrop` appends one new item per accepted source, in
order, after the items already there, which stay unchanged and in place. -/
theorem files_eq_sources_since_clear (s : State) (ops : List ItemOp)
    (hs : s.files = []) :
    (ops.foldl applyItemOp s).files.map (fun it => it.file) =
        sourcesSinceClear ops ∧
      (∀ it ∈ (ops.foldl applyItemOp s).files,
        it.name = it.file.name ∧ it.size = it.file.size) ∧
      (∀ (t : State) (accepted : List Dropped),
        (onDrop t accepted).files = t.files ++ accepted.map newFile ∧
          (accepted.map newFile).map (fun it => (it.file, it.name, it.size)) =
            accepted.map (fun d => (d.file, d.file.name, d.file.size))) := by
  refine ⟨?_, ?_, ?_⟩
  · rw [foldl_applyItemOp_sources]
    by_cases hc : ops.any (fun op => op == ItemOp.clear) = true
    · simp [hc]
    · simp [hc, hs]
  · apply foldl_applyItemOp_fields
    intro it hit
    simp [hs] at hit
  · intro t accepted
    refine ⟨rfl, ?_⟩
    simp [newFile, Function.comp_def]

/-- C9 on the initial state: one picture is added, the list is cleared, two
pictures are added and then one more: the item list holds the last three, in
that order. -/
theorem files_eq_sources_since_clear_witness :
    initialState.files = [] ∧
      ([ItemOp.add [dropA], ItemOp.clear, ItemOp.add [dropB, dropC],
          ItemOp.add [dropA]].foldl applyItemOp initialState).files.map
          (fun it => it.file) =
        [photoB, photoC, photoA] ∧
      (∀ it ∈ ([ItemOp.add [dropA], ItemOp.clear, ItemOp.add [dropB, dropC],
          ItemOp.add [dropA]].foldl applyItemOp initialState).files,
        it.name = it.file.name ∧ it.size = it.file.size) ∧
      (∀ (t : State) (accepted : List Dropped),
        (onDrop t accepted).files = t.files ++ accepted.map newFile ∧
          (accepted.map newFile).map (fun it => (it.file, it.name, it.size)) =
            accepted.map (fun d => (d.file, d.file.name, d.file.size))) :=
  ⟨rfl, files_eq_sources_since_clear initialState
    [ItemOp.add [dropA], ItemOp.clear, ItemOp.add [dropB, dropC], ItemOp.add [dropA]]
    rfl⟩

/-! ## Stats and results -/

/-- One event keeps the stats in step with a non-empty result list, when a
successful response is consistent. -/
theorem step_stats_match (y z : Sys) (ev : Event)
    (hc : ∀ r, ev = Event.settle (FetchOutcome.ok r) → r.Consistent)
    (h : step y ev = some z)
    (hi : y.st.compressedFiles ≠ [] → StatsMatch y.st) :
    z.st.compressedFiles ≠ [] → StatsMatch z.st := by
  cases ev with
  | drop accepted =>
    simp only [step, Option.some.injEq] at h
    subst h
    exact hi
  | start =>
    simp only [step, Option.some.injEq] at h
    subst h
    by_cases hlen : y.st.files.length = 0
    · simpa [compressImages, hlen] using hi
    · intro hne
      simp [compressImages, hlen] at hne
  | progress e =>
    by_cases hpos : 0 < y.inflight
    · simp only [step, hpos, if_true, Option.some.injEq] at h
      subst h
      exact hi
    · simp [step, hpos] at h
  | settle o =>
    by_cases hpos : 0 < y.inflight
    · simp only [step, hpos, if_true, Option.some.injEq] at h
      subst h
      cases o with
      | ok r =>
        intro _
        exact hc r rfl
      | okBadBody => exact hi
      | notOk => exact hi
      | rejected => exact hi
    · simp [step, hpos] at h
  | reset =>
    simp only [step, Option.some.injEq] at h
    subst h
    intro hne
    simp [clearFiles] at hne

/-- A run of events keeps the stats in step with a non-empty result list. -/
theorem runEvents_stats_match (evs : List Event) (y z : Sys)
    (hc : ∀ r, Event.settle (FetchOutcome.ok r) ∈ evs → r.Consistent)
    (h : runEvents y evs = some z)
    (hi : y.st.compressedFiles ≠ [] → StatsMatch y.st) :
    z.st.compressedFiles ≠ [] → StatsMatch z.st := by
  induction evs generalizing y with
  | nil =>
    simp only [runEvents, List.foldlM_nil, Option.pure_def, Option.some.injEq] at h
    subst h
    exact hi
  | cons ev rest ih =>
    rw [runEvents_cons] at h
    cases hs : step y ev with
    | none => simp [hs] at h
    | some w =>
      rw [hs, Option.some_bind] at h
      refine ih w (fun r hr => hc r (List.mem_cons_of_mem _ hr)) h ?_
      exact step_stats_match y w ev
        (fun r hr => hc r (hr ▸ List.mem_cons_self _ _)) hs hi

/-- C10, as stated, fails: one picture is added, a run succeeds with a
consistent response (original size 100, compressed size 50), and
`compressImages` is called again: the result list is emptied but the stats keep
the totals of the previous run, so they are not the sums over the result
list. The same holds after that second run fails. -/
theorem stats_stale_after_restart :
    resultA.Consistent ∧
      runEvents initialSys [Event.drop [dropA], Event.start,
          Event.settle (FetchOutcome.ok resultA), Event.start] =
        some { st := { oneItemState with
                        isProcessing := true
                        stats := { originalSize := 100, compressedSize := 50, savings := 50 } }
               inflight := 1 } ∧
      ¬ StatsMatch { oneItemState with
                      isProcessing := true
                      stats := { originalSize := 100, compressedSize := 50, savings := 50 } } ∧
      runEvents initialSys [Event.drop [dropA], Event.start,
          Event.settle (FetchOutcome.ok resultA), Event.start,
          Event.settle FetchOutcome.notOk] =
        some { st := { oneItemState with
                        stats := { originalSize := 100, compressedSize := 50, savings := 50 } }
               inflight := 0 } ∧
      ¬ StatsMatch { oneItemState with
                      stats := { originalSize := 100, compressedSize := 50, savings := 50 } } := by
  decide

/-- C10, amended: when every successful response is consistent (its stats are
the sums over its files), in every state reached from the initial state by
drops, calls of `compressImages`, progress events, settlements and resets in
which the result list is non-empty, the stored stats are the sums over the
stored results. -/
theorem stats_match_of_results (evs : List Event) (y : Sys)
    (hc : ∀ r, Event.settle (FetchOutcome.ok r) ∈ evs → r.Consistent)
    (hr : runEvents initialSys evs = some y) :
    y.st.compressedFiles ≠ [] → StatsMatch y.st := by
  refine runEvents_stats_match evs initialSys y hc hr ?_
  intro hne
  exact absurd rfl hne

/-- C10, amended, on the scenario: three items, a run that succeeds with the
consistent response of the scenario, then one more item is added. -/
theorem stats_match_of_results_witness :
    (∀ r, Event.settle (FetchOutcome.ok r) ∈
        [Event.drop [dropA, dropB, dropC], Event.start,
          Event.progress { loaded := 300, total := 600 },
          Event.settle (FetchOutcome.ok resultABC), Event.drop [dropA]] →
        r.Consistent) ∧
      runEvents initialSys
          [Event.drop [dropA, dropB, dropC], Event.start,
            Event.progress { loaded := 300, total := 600 },
            Event.settle (FetchOutcome.ok resultABC), Event.drop [dropA]] =
        some { st := { onDrop (onDrop initialState [dropA, dropB, dropC]) [dropA] with
                        compressedFiles := resultABC.files
                        stats := resultABC.stats
                        progress := JsNumber.num 100 }
               inflight := 0 } ∧
      (resultABC.files ≠ [] →
        StatsMatch { onDrop (onDrop initialState [dropA, dropB, dropC]) [dropA] with
                      compressedFiles := resultABC.files
                      stats := resultABC.stats
                      progress := JsNumber.num 100 }) :=
  have hc : ∀ r, Event.settle (FetchOutcome.ok r) ∈
      [Event.drop [dropA, dropB, dropC], Event.start,
        Event.progress { loaded := 300, total := 600 },
        Event.settle (FetchOutcome.ok resultABC), Event.drop [dropA]] →
      r.Consistent := by
    intro r hr
    simp at hr
    subst hr
    decide
  ⟨hc, by decide,
    stats_match_of_results _
      { st := { onDrop (onDrop initialState [dropA, dropB, dropC]) [dropA] with
                  compressedFiles := resultABC.files
                  stats := resultABC.stats
                  progress := JsNumber.num 100 }
        inflight := 0 } hc (by decide)⟩

end ImageCompressor
